import Mathlib

/-!
Shallow embedding of `jwlib/download.py` from allejok96/jw-kodiator.

The module under verification manages download, integrity checking and
disk-space eviction for media files.  The filesystem is embedded as an
explicit `World` state (free bytes on the volume plus the entries of the
managed directory); every `Path` method used by the source (`exists`,
`size`, `mtime`, `unlink`, `rename`, `set_mtime`, `is_mp4`, `_md5`) becomes
an operation on that state.  Network transfers (`download_file`) are
embedded by an oracle describing the bytes that arrive: the code never
inspects the network except through the size and MD5 digest of the file it
wrote, so a transfer outcome is summarised by those two values.

Python truthiness of the optional `Media` fields is encoded directly:
`size : Nat` with `0` for Python `None`/`0` (both falsy, and the value is
only read under a truthiness guard in the source), `md5 : String` with `""`
for falsy, `date : Nat` with `0` for falsy.
-/

namespace JwKodiator

/-- One media descriptor, from `jwlib.parse.Media` (not under `src/`).
Modelled from the spec: "MediaDescriptor — represents one remote file to
sync: url, filename, displayName, expectedSizeBytes (optional),
expectedChecksum (optional), publishDate (optional)".  Only the fields read
by `download.py` are kept; `0` / `""` encode the Python-falsy values. -/
structure Media where
  filename : String
  size : Nat
  md5 : String
  date : Nat
deriving DecidableEq, Repr

/-- The settings fields read by the embedded functions, from
`jwlib.common.Settings` (not under `src/`).  Modelled from the spec:
"Settings — minimum-free-space floor, checksum-verification flag,
fix broken files flag".  Display-only fields (`quiet`, `rate_limit`,
paths) are omitted: they never influence the embedded state. -/
structure Settings where
  overwrite_bad : Bool
  checksums : Bool
  keep_free : Nat
deriving DecidableEq, Repr

/-- A file at rest in the managed directory: name, byte size, MD5 digest of
its content (what `_md5` would return), and modification time. -/
structure DirEntry where
  name : String
  size : Nat
  md5 : String
  mtime : Nat
deriving DecidableEq, Repr

/-- `Path.is_mp4` lives in `jwlib.common` (not under `src/`).
Modelled from the spec: the Evictor considers "existing final media files"
("old MP4 files in target directory"), i.e. files with the `.mp4` name
suffix; staging files carry a `.part` suffix and are never candidates.
(The suffix test is phrased on the character list so that it evaluates by
kernel reduction.) -/
def DirEntry.is_mp4 (f : DirEntry) : Bool :=
  (".mp4".data).isSuffixOf f.name.data

/-- The filesystem state visible to the code: free bytes on the volume
(`shutil.disk_usage(...).free`) and the contents of the managed
directory. -/
structure World where
  free : Nat
  dirFiles : List DirEntry
deriving DecidableEq, Repr

namespace World

/-- Stat a file by name (`Path.exists` / `.size` / `.mtime` / `_md5`). -/
def lookup (w : World) (n : String) : Option DirEntry :=
  w.dirFiles.find? (fun f => f.name = n)

/-- Size currently occupied by name `n` (0 when absent). -/
def sizeOf (w : World) (n : String) : Nat :=
  ((w.lookup n).map DirEntry.size).getD 0

/-- Create or overwrite a file: the bytes of a previous file of the same
name are released, the new bytes are taken from the free space. -/
def setFile (w : World) (f : DirEntry) : World :=
  { free := w.free + w.sizeOf f.name - f.size,
    dirFiles := f :: w.dirFiles.filter (fun g => g.name ≠ f.name) }

/-- `Path.unlink`: remove the file and release its bytes. -/
def unlink (w : World) (n : String) : World :=
  { free := w.free + w.sizeOf n,
    dirFiles := w.dirFiles.filter (fun g => g.name ≠ n) }

/-- `Path.set_mtime`: overwrite the modification time of file `n`. -/
def setMtime (w : World) (n : String) (t : Nat) : World :=
  { w with dirFiles :=
      w.dirFiles.map (fun f => if f.name = n then { f with mtime := t } else f) }

/-- `Path.rename`: move file `a` to name `b`, atomically replacing any
previous `b` (whose bytes are released); sizes and mtime move unchanged. -/
def rename (w : World) (a b : String) : World :=
  match w.lookup a with
  | none => w
  | some f =>
      { free := w.free + w.sizeOf b,
        dirFiles := { f with name := b } ::
          w.dirFiles.filter (fun g => g.name ≠ a ∧ g.name ≠ b) }

end World

/-- `check_media(s, media)` (`download.py` lines 72-98): true when the
local final file needs no work.  Missing file: false.  With
`overwrite_bad` off the file is trusted unconditionally; with it on, a
known-and-mismatching size fails, else a known-and-mismatching checksum
fails when `s.checksums` is enabled. -/
def check_media (s : Settings) (media : Media) (w : World) : Bool :=
  match w.lookup media.filename with
  | none => false
  | some file =>
      if s.overwrite_bad then
        if media.size ≠ 0 ∧ file.size ≠ media.size then
          false
        else if s.checksums ∧ media.md5 ≠ "" ∧ file.md5 ≠ media.md5 then
          false
        else
          true
      else
        true

/-- Outcome of one resumed transfer (`download_file(..., resume=True)`):
the server's range response appends `appended` bytes; `md5` is the digest
of the staging file afterwards.  Parametrised by the offset sent in the
range request (the staging file's current size). -/
structure ResumeOut where
  appended : Nat
  md5 : String
deriving DecidableEq, Repr

/-- What the network delivers during one `download_media` call: the range
response for a resumed transfer, the file produced by a full transfer
(size and digest), and the wall-clock mtime the filesystem stamps on
freshly written data. -/
structure Oracles where
  resumeOut : Nat → ResumeOut
  freshSize : Nat
  freshMd5 : String
  now : Nat

/-- `download_file(url, tmpfile, resume=True, ...)` (lines 204-265) as seen
by the caller: the staging file grows by the bytes of the range response;
returns the new staging entry together with the new world. -/
def download_file_resume (o : Oracles) (tname : String) (tmp : DirEntry)
    (w : World) : DirEntry × World :=
  let r := o.resumeOut tmp.size
  let t : DirEntry :=
    { name := tname, size := tmp.size + r.appended, md5 := r.md5, mtime := o.now }
  (t, w.setFile t)

/-- `download_file(url, tmpfile, ...)` without resume (lines 204-265) as
seen by the caller: the staging file is truncated and rewritten with the
full response body. -/
def download_file_fresh (o : Oracles) (tname : String)
    (w : World) : DirEntry × World :=
  let t : DirEntry :=
    { name := tname, size := o.freshSize, md5 := o.freshMd5, mtime := o.now }
  (t, w.setFile t)

/-- The tail of `download_media` from the `# Continuing to regular
download` comment on (lines 139-169): full transfer into staging, reject a
zero-byte result, else stamp the publish date when known, rename to final,
then audit size (returning failure on mismatch) and checksum (log only). -/
def download_media_rest (s : Settings) (media : Media) (o : Oracles)
    (w : World) : Bool × World :=
  let tname := media.filename ++ ".part"
  let (tmp, w1) := download_file_fresh o tname w
  if tmp.size = 0 then
    (false, w1.unlink tname)
  else
    let w2 := if media.date ≠ 0 then w1.setMtime tname media.date else w1
    let w3 := w2.rename tname media.filename
    let fileSize := w3.sizeOf media.filename
    let fileMd5 := ((w3.lookup media.filename).map DirEntry.md5).getD ""
    if media.size ≠ 0 ∧ fileSize ≠ media.size then
      (false, w3)
    else if s.checksums ∧ media.md5 ≠ "" ∧ fileMd5 ≠ media.md5 then
      -- checksum mismatch on a fresh file is logged only (line 165-167)
      (true, w3)
    else
      (true, w3)

/-- `download_media(s, media)` (lines 101-169).  With a staging file
present: resume when the expected size is known and the file is smaller;
then a known-size mismatch or (independently of `s.checksums`) a known-MD5
mismatch deletes the staging file and execution continues with the regular
full download; otherwise the staging file is stamped with the publish date
when known, renamed to final, and the call returns success.  Without a
staging file, the regular download path `download_media_rest` runs. -/
def download_media (s : Settings) (media : Media) (o : Oracles)
    (w : World) : Bool × World :=
  let tname := media.filename ++ ".part"
  match w.lookup tname with
  | some tmp0 =>
      let (tmp, w1) :=
        if media.size ≠ 0 ∧ tmp0.size < media.size then
          download_file_resume o tname tmp0 w
        else
          (tmp0, w)
      if media.size ≠ 0 ∧ tmp.size ≠ media.size then
        download_media_rest s media o (w1.unlink tname)
      else if media.md5 ≠ "" ∧ tmp.md5 ≠ media.md5 then
        download_media_rest s media o (w1.unlink tname)
      else
        let w2 := if media.date ≠ 0 then w1.setMtime tname media.date else w1
        (true, w2.rename tname media.filename)
  | none => download_media_rest s media o w

/-- `min((f for f in s.media_dir.iterdir() if f.is_mp4()), key=lambda f: f.mtime)`
(line 287): the first `.mp4` entry with the least mtime, `none` when the
directory holds no `.mp4` file (Python raises `ValueError`). -/
def oldestMp4 (l : List DirEntry) : Option DirEntry :=
  (l.filter DirEntry.is_mp4).foldl
    (fun acc f =>
      match acc with
      | none => some f
      | some g => if f.mtime < g.mtime then some f else some g)
    none

/-- Outcome of one `disk_cleanup` call.  `missingTimestamp` and
`limitReached` embed the raised `MissingTimestampError` / `DiskLimitReached`
exceptions, `noVideosExit` the `exit(1)` when no eviction candidate remains,
`assertFailed` a failing precondition assert (lines 270-271). -/
inductive CleanupResult where
  | success
  | missingTimestamp
  | limitReached
  | noVideosExit
  | assertFailed
deriving DecidableEq, Repr

lemma oldestMp4_aux_mem (l : List DirEntry) :
    ∀ (acc f : DirEntry),
      l.foldl
        (fun acc f =>
          match acc with
          | none => some f
          | some g => if f.mtime < g.mtime then some f else some g)
        (some acc) = some f →
      f = acc ∨ f ∈ l := by
  induction l with
  | nil =>
      intro acc f h
      simp at h
      exact Or.inl h.symm
  | cons x xs ih =>
      intro acc f h
      simp only [List.foldl_cons] at h
      by_cases hx : x.mtime < acc.mtime
      · simp only [hx, if_pos] at h
        rcases ih x f h with h1 | h1
        · exact Or.inr (by simp [h1])
        · exact Or.inr (List.mem_cons_of_mem x h1)
      · simp only [hx, if_neg, not_false_iff] at h
        rcases ih acc f h with h1 | h1
        · exact Or.inl h1
        · exact Or.inr (List.mem_cons_of_mem x h1)

lemma oldestMp4_mem {l : List DirEntry} {f : DirEntry}
    (h : oldestMp4 l = some f) : f ∈ l ∧ f.is_mp4 = true := by
  suffices hf : f ∈ l.filter DirEntry.is_mp4 by
    exact ⟨(List.mem_filter.mp hf).1, (List.mem_filter.mp hf).2⟩
  unfold oldestMp4 at h
  rcases hl : l.filter DirEntry.is_mp4 with _ | ⟨x, xs⟩
  · rw [hl] at h
    simp at h
  · rw [hl] at h
    simp only [List.foldl_cons] at h
    rcases oldestMp4_aux_mem xs x f h with h1 | h1
    · simp [h1]
    · exact List.mem_cons_of_mem x h1

lemma length_filter_mp4_unlink_lt (l : List DirEntry) (f : DirEntry)
    (hf : f ∈ l) (hm : f.is_mp4 = true) :
    ((l.filter (fun g => g.name ≠ f.name)).filter DirEntry.is_mp4).length
      < (l.filter DirEntry.is_mp4).length := by
  induction l with
  | nil => cases hf
  | cons x xs ih =>
      by_cases hname : x.name = f.name
      · have hxm : x.is_mp4 = true := by
          unfold DirEntry.is_mp4 at hm ⊢
          rw [hname]
          exact hm
        have hle :
            ((xs.filter (fun g => g.name ≠ f.name)).filter DirEntry.is_mp4).length
              ≤ (xs.filter DirEntry.is_mp4).length :=
          List.Sublist.length_le
            (List.Sublist.filter _ (List.filter_sublist xs))
        have h1 : (x :: xs).filter (fun g => g.name ≠ f.name)
            = xs.filter (fun g => g.name ≠ f.name) := by
          simp [List.filter_cons, hname]
        have h2 : (x :: xs).filter DirEntry.is_mp4
            = x :: xs.filter DirEntry.is_mp4 := by
          simp [List.filter_cons, hxm]
        rw [h1, h2]
        simp only [List.length_cons]
        omega
      · have hfxs : f ∈ xs := by
          rcases List.mem_cons.mp hf with h1 | h1
          · exact absurd (by rw [h1]) hname
          · exact h1
        have hrec := ih hfxs
        have h1 : (x :: xs).filter (fun g => g.name ≠ f.name)
            = x :: xs.filter (fun g => g.name ≠ f.name) := by
          simp [List.filter_cons, hname]
        rw [h1]
        by_cases hxm : x.is_mp4 = true
        · have h2 : ∀ ys : List DirEntry, (x :: ys).filter DirEntry.is_mp4
              = x :: ys.filter DirEntry.is_mp4 := fun ys => by
            simp [List.filter_cons, hxm]
          rw [h2, h2]
          simp only [List.length_cons]
          omega
        · have h2 : ∀ ys : List DirEntry, (x :: ys).filter DirEntry.is_mp4
              = ys.filter DirEntry.is_mp4 := fun ys => by
            simp [List.filter_cons, hxm]
          rw [h2, h2]
          exact hrec

/-- The `while True` loop of `disk_cleanup` (lines 273-302).  Returns the
outcome, the final world and the entries deleted, in deletion order.
Each pass either terminates or removes one `.mp4` entry, hence the
recursion is on the number of `.mp4` entries. -/
def disk_cleanup_loop (s : Settings) (ref : Media) (w : World) :
    CleanupResult × World × List DirEntry :=
  let space := w.free
  let needed := ref.size + s.keep_free
  if space > needed then
    (.success, w, [])
  else if ref.date = 0 then
    (.missingTimestamp, w, [])
  else
    match holdest : oldestMp4 w.dirFiles with
    | none => (.noVideosExit, w, [])
    | some oldest =>
        if ref.date ≤ oldest.mtime then
          (.limitReached, w, [])
        else
          let out := disk_cleanup_loop s ref (w.unlink oldest.name)
          (out.1, out.2.1, oldest :: out.2.2)
termination_by (w.dirFiles.filter DirEntry.is_mp4).length
decreasing_by
  have hmem := oldestMp4_mem holdest
  exact length_filter_mp4_unlink_lt w.dirFiles oldest hmem.1 hmem.2

/-- `disk_cleanup(s, reference_media)` (lines 268-302): the two asserts
(`s.keep_free`, `reference_media.size`) guard the loop. -/
def disk_cleanup (s : Settings) (ref : Media) (w : World) :
    CleanupResult × World × List DirEntry :=
  if s.keep_free = 0 ∨ ref.size = 0 then
    (.assertFailed, w, [])
  else
    disk_cleanup_loop s ref w

/-- Fuel-indexed evaluator for `disk_cleanup_loop`: identical body, but
structurally recursive on the fuel so that the kernel can compute it on
concrete inputs.  `disk_cleanup_fuel_spec` ties it to the loop. -/
def disk_cleanup_fuel : Nat → Settings → Media → World →
    Option (CleanupResult × World × List DirEntry)
  | 0, _, _, _ => none
  | fuel + 1, s, ref, w =>
      if w.free > ref.size + s.keep_free then
        some (.success, w, [])
      else if ref.date = 0 then
        some (.missingTimestamp, w, [])
      else
        match oldestMp4 w.dirFiles with
        | none => some (.noVideosExit, w, [])
        | some oldest =>
            if ref.date ≤ oldest.mtime then
              some (.limitReached, w, [])
            else
              (disk_cleanup_fuel fuel s ref (w.unlink oldest.name)).map
                (fun out => (out.1, out.2.1, oldest :: out.2.2))

lemma disk_cleanup_fuel_spec (fuel : Nat) (s : Settings) (ref : Media) :
    ∀ w : World, (w.dirFiles.filter DirEntry.is_mp4).length < fuel →
      disk_cleanup_fuel fuel s ref w = some (disk_cleanup_loop s ref w) := by
  induction fuel with
  | zero => intro w hw; omega
  | succ n ih =>
      intro w hw
      rw [disk_cleanup_loop.eq_def]
      unfold disk_cleanup_fuel
      by_cases h1 : w.free > ref.size + s.keep_free
      · simp [h1]
      · by_cases h2 : ref.date = 0
        · simp [h1, h2]
        · rcases h3 : oldestMp4 w.dirFiles with _ | oldest
          · simp [h1, h2, h3]
          · by_cases h4 : ref.date ≤ oldest.mtime
            · simp [h1, h2, h3, h4]
            · have hm := oldestMp4_mem h3
              have hlt :=
                length_filter_mp4_unlink_lt w.dirFiles oldest hm.1 hm.2
              have hrec := ih (w.unlink oldest.name) (by
                unfold World.unlink
                simp only []
                omega)
              simp [h1, h2, h3, h4, hrec]

/-- Computes `disk_cleanup` on concrete inputs through the fuel twin:
`w.dirFiles.length + 1` is always enough fuel. -/
lemma disk_cleanup_eval (s : Settings) (ref : Media) (w : World)
    (out : CleanupResult × World × List DirEntry)
    (hassert : ¬ (s.keep_free = 0 ∨ ref.size = 0))
    (h : disk_cleanup_fuel (w.dirFiles.length + 1) s ref w = some out) :
    disk_cleanup s ref w = out := by
  have hfuel : (w.dirFiles.filter DirEntry.is_mp4).length
      < w.dirFiles.length + 1 :=
    Nat.lt_succ_of_le (List.length_filter_le _ _)
  have hspec := disk_cleanup_fuel_spec (w.dirFiles.length + 1) s ref w hfuel
  rw [h] at hspec
  unfold disk_cleanup
  rw [if_neg hassert]
  exact (Option.some_inj.mp hspec).symm

/-- One observable step of a `download_all` pass.  `skipped` records the
`continue` taken on `MissingTimestampError`, `halted` the `return` taken on
`DiskLimitReached`, `fatalStop` an `AssertionError` or the `exit(1)` inside
`disk_cleanup` ending the process, and `downloaded` an invocation of
`download_media` together with its returned flag. -/
inductive Event where
  | skipped (m : Media)
  | halted
  | fatalStop
  | downloaded (m : Media) (ok : Bool)
deriving DecidableEq, Repr

/-- The `for` loop of `download_all` (lines 31-46), applied to the list of
items that still need work.  The transfer oracle for each item is given by
`ora`.  Returns the final world and the event trace of the pass. -/
def download_all_go (s : Settings) (ora : Media → Oracles) :
    World → List Media → World × List Event
  | w, [] => (w, [])
  | w, m :: rest =>
      if s.keep_free > 0 then
        match disk_cleanup s m w with
        | (.missingTimestamp, w1, _) =>
            let out := download_all_go s ora w1 rest
            (out.1, .skipped m :: out.2)
        | (.limitReached, w1, _) => (w1, [.halted])
        | (.noVideosExit, w1, _) => (w1, [.fatalStop])
        | (.assertFailed, w1, _) => (w1, [.fatalStop])
        | (.success, w1, _) =>
            let (ok, w2) := download_media s m (ora m) w1
            let out := download_all_go s ora w2 rest
            (out.1, .downloaded m ok :: out.2)
      else
        let (ok, w2) := download_media s m (ora m) w
        let out := download_all_go s ora w2 rest
        (out.1, .downloaded m ok :: out.2)

/-- `download_all(s, media_list)` (lines 22-46): filter out the items whose
local file already checks out (against the initial world, as the list
comprehension on line 29 does), then run the download loop. -/
def download_all (s : Settings) (ora : Media → Oracles) (w : World)
    (media_list : List Media) : World × List Event :=
  download_all_go s ora w
    (media_list.filter (fun m => ¬ check_media s m w))

namespace World

lemma lookup_setFile_self (w : World) (f : DirEntry) :
    (w.setFile f).lookup f.name = some f := by
  unfold setFile lookup
  exact List.find?_cons_of_pos _ (by simp)

lemma find?_setMtime (l : List DirEntry) (n : String) (t : Nat) (f : DirEntry)
    (h : l.find? (fun g => g.name = n) = some f) :
    (l.map (fun g => if g.name = n then { g with mtime := t } else g)).find?
      (fun g => g.name = n) = some { f with mtime := t } := by
  induction l with
  | nil => simp at h
  | cons x xs ih =>
      by_cases hx : x.name = n
      · rw [List.find?_cons_of_pos _ (by simp [hx])] at h
        obtain rfl : x = f := Option.some_inj.mp h
        simp only [List.map_cons, if_pos hx]
        exact List.find?_cons_of_pos _ (by simp [hx])
      · rw [List.find?_cons_of_neg _ (by simp [hx])] at h
        simp only [List.map_cons, if_neg hx]
        rw [List.find?_cons_of_neg _ (by simp [hx])]
        exact ih h

lemma lookup_setMtime_self (w : World) (n : String) (t : Nat) (f : DirEntry)
    (h : w.lookup n = some f) :
    (w.setMtime n t).lookup n = some { f with mtime := t } := by
  unfold setMtime lookup
  unfold lookup at h
  exact find?_setMtime w.dirFiles n t f h

lemma lookup_rename_self (w : World) (a b : String) (f : DirEntry)
    (h : w.lookup a = some f) :
    (w.rename a b).lookup b = some { f with name := b } := by
  unfold rename
  rw [h]
  unfold lookup
  exact List.find?_cons_of_pos _ (by simp)

end World

/-- On the regular-download tail, a successful return always leaves the
final file stamped with the publish date (when one is known). -/
lemma download_media_rest_mtime (s : Settings) (media : Media) (o : Oracles)
    (w : World) (hd : media.date ≠ 0)
    (hok : (download_media_rest s media o w).1 = true) :
    ((download_media_rest s media o w).2.lookup media.filename).map
      DirEntry.mtime = some media.date := by
  have h1 := World.lookup_setFile_self w
    { name := media.filename ++ ".part", size := o.freshSize,
      md5 := o.freshMd5, mtime := o.now }
  have h2 := World.lookup_setMtime_self _ (media.filename ++ ".part")
    media.date _ h1
  have h3 := World.lookup_rename_self _ (media.filename ++ ".part")
    media.filename _ h2
  unfold download_media_rest download_file_fresh at hok ⊢
  by_cases hz : o.freshSize = 0
  · simp [hz] at hok
  · simp only [hz, hd, ne_eq, not_false_iff, if_true, if_false, ite_false,
      ite_true]
    simp [hz, hd]
    split <;> simp [h3]

/-- Promoting a staging file: stamping mtime `d` and renaming to `b`
leaves a file at `b` whose mtime is `d`. -/
lemma promote_mtime (w1 : World) (a b : String) (d : Nat) (tmp : DirEntry)
    (hl : w1.lookup a = some tmp) :
    (((w1.setMtime a d).rename a b).lookup b).map DirEntry.mtime = some d := by
  have h2 := World.lookup_setMtime_self w1 a d tmp hl
  have h3 := World.lookup_rename_self _ a b _ h2
  simp [h3]

/-- Claim C8: for every media item for which `download_media` reports success,
the resulting final file's modification time equals the descriptor's
publish date (not the download wall-clock time), on the resumed-staging
path and on the fresh-download path alike. -/
theorem C8_success_mtime_is_publish_date (s : Settings) (media : Media)
    (o : Oracles) (w : World) (hd : media.date ≠ 0)
    (hok : (download_media s media o w).1 = true) :
    ((download_media s media o w).2.lookup media.filename).map
      DirEntry.mtime = some media.date := by
  simp only [download_media, download_file_resume] at hok ⊢
  rcases ht : w.lookup (media.filename ++ ".part") with _ | tmp0
  all_goals rw [ht] at hok
  · exact download_media_rest_mtime s media o w hd hok
  · by_cases hA : media.size = 0
    · -- expected size unknown: no resume, no size gate
      by_cases hD : media.md5 = ""
      · simpa [hA, hD, hd] using
          promote_mtime w (media.filename ++ ".part") media.filename
            media.date tmp0 ht
      · by_cases hE : tmp0.md5 = media.md5
        · simpa [hA, hD, hE, hd] using
            promote_mtime w (media.filename ++ ".part") media.filename
              media.date tmp0 ht
        · simp [hA, hD, hE] at hok
          simpa [hA, hD, hE] using
            download_media_rest_mtime s media o _ hd hok
    · by_cases hB : tmp0.size < media.size
      · -- resume transfer ran
        by_cases hC : tmp0.size + (o.resumeOut tmp0.size).appended = media.size
        · by_cases hD : media.md5 = ""
          · simpa [hA, hB, hC, hD, hd] using
              promote_mtime
                (w.setFile
                  { name := media.filename ++ ".part",
                    size := tmp0.size + (o.resumeOut tmp0.size).appended,
                    md5 := (o.resumeOut tmp0.size).md5, mtime := o.now })
                (media.filename ++ ".part") media.filename media.date _
                (World.lookup_setFile_self w _)
          · by_cases hE : (o.resumeOut tmp0.size).md5 = media.md5
            · simpa [hA, hB, hC, hD, hE, hd] using
                promote_mtime
                  (w.setFile
                    { name := media.filename ++ ".part",
                      size := tmp0.size + (o.resumeOut tmp0.size).appended,
                      md5 := (o.resumeOut tmp0.size).md5, mtime := o.now })
                  (media.filename ++ ".part") media.filename media.date _
                  (World.lookup_setFile_self w _)
            · simp [hA, hB, hC, hD, hE] at hok
              simpa [hA, hB, hC, hD, hE] using
                download_media_rest_mtime s media o _ hd hok
        · simp [hA, hB, hC] at hok
          simpa [hA, hB, hC] using
            download_media_rest_mtime s media o _ hd hok
      · -- staging at least as large as expected: no resume
        by_cases hC : tmp0.size = media.size
        · by_cases hD : media.md5 = ""
          · simpa [hA, hB, hC, hD, hd] using
              promote_mtime w (media.filename ++ ".part") media.filename
                media.date tmp0 ht
          · by_cases hE : tmp0.md5 = media.md5
            · simpa [hA, hB, hC, hD, hE, hd] using
                promote_mtime w (media.filename ++ ".part") media.filename
                  media.date tmp0 ht
            · simp [hA, hB, hC, hD, hE] at hok
              simpa [hA, hB, hC, hD, hE] using
                download_media_rest_mtime s media o _ hd hok
        · simp [hA, hB, hC] at hok
          simpa [hA, hB, hC] using
            download_media_rest_mtime s media o _ hd hok

def c8s : Settings := ⟨false, true, 0⟩

def c8m : Media := ⟨"v.mp4", 10, "h", 77⟩

def c8o : Oracles := ⟨fun _ => ⟨0, ""⟩, 10, "h", 5⟩

def c8w : World := ⟨100, []⟩

/-- Witness for C8: a concrete fresh download that succeeds and leaves the
final file stamped with the publish date 77. -/
theorem C8_witness :
    c8m.date ≠ 0 ∧ (download_media c8s c8m c8o c8w).1 = true ∧
      ((download_media c8s c8m c8o c8w).2.lookup c8m.filename).map
        DirEntry.mtime = some c8m.date :=
  ⟨by decide, by decide,
    C8_success_mtime_is_publish_date c8s c8m c8o c8w (by decide) (by decide)⟩

/-- Claim C6: `check_media` returns false when no final file exists; returns true
unconditionally when the file exists and fix-broken mode is off; with
fix-broken mode on it returns false exactly when the expected size is known
and mismatches, or checksum verification is enabled and the expected
checksum is known and mismatches. -/
theorem C6_check_media_characterisation (s : Settings) (media : Media)
    (w : World) :
    (w.lookup media.filename = none → check_media s media w = false) ∧
    (∀ f, w.lookup media.filename = some f → s.overwrite_bad = false →
      check_media s media w = true) ∧
    (∀ f, w.lookup media.filename = some f → s.overwrite_bad = true →
      (check_media s media w = false ↔
        ((media.size ≠ 0 ∧ f.size ≠ media.size) ∨
          (s.checksums = true ∧ media.md5 ≠ "" ∧ f.md5 ≠ media.md5)))) := by
  refine ⟨?_, ?_, ?_⟩
  · intro h
    simp [check_media, h]
  · intro f hf hob
    simp [check_media, hf, hob]
  · intro f hf hob
    simp only [check_media, hf, hob, if_true]
    by_cases h1 : media.size ≠ 0 ∧ f.size ≠ media.size
    · simp [h1]
    · by_cases h2 : s.checksums ∧ media.md5 ≠ "" ∧ f.md5 ≠ media.md5
      · simp [h1, h2]
      · simp [h1, h2]

def c6s : Settings := ⟨true, true, 0⟩

def c6m : Media := ⟨"v.mp4", 10, "h", 1⟩

def c6f : DirEntry := ⟨"v.mp4", 10, "zz", 1⟩

/-- Witness for C6 at concrete inputs: missing file is false; fix-broken
off trusts the file; fix-broken on rejects a checksum mismatch. -/
theorem C6_witness :
    check_media c6s c6m ⟨0, []⟩ = false ∧
      check_media ⟨false, true, 0⟩ c6m ⟨0, [c6f]⟩ = true ∧
      (check_media c6s c6m ⟨0, [c6f]⟩ = false ↔
        ((c6m.size ≠ 0 ∧ c6f.size ≠ c6m.size) ∨
          (true = true ∧ c6m.md5 ≠ "" ∧ c6f.md5 ≠ c6m.md5))) :=
  ⟨(C6_check_media_characterisation c6s c6m ⟨0, []⟩).1 (by decide),
    (C6_check_media_characterisation ⟨false, true, 0⟩ c6m ⟨0, [c6f]⟩).2.1 c6f
      (by decide) (by decide),
    (C6_check_media_characterisation c6s c6m ⟨0, [c6f]⟩).2.2 c6f
      (by decide) (by decide)⟩

lemma disk_cleanup_loop_deleted_older (s : Settings) (ref : Media) :
    ∀ n (w : World), (w.dirFiles.filter DirEntry.is_mp4).length = n →
      ∀ f ∈ (disk_cleanup_loop s ref w).2.2, f.mtime < ref.date := by
  intro n
  induction n using Nat.strong_induction_on with
  | _ n ih =>
      intro w hn f hf
      rw [disk_cleanup_loop.eq_def] at hf
      by_cases h1 : ref.size + s.keep_free < w.free
      · rw [if_pos h1] at hf
        simp at hf
      · rw [if_neg h1] at hf
        by_cases h2 : ref.date = 0
        · rw [if_pos h2] at hf
          simp at hf
        · rw [if_neg h2] at hf
          split at hf
          · simp at hf
          · rename_i oldest holdest
            by_cases h4 : ref.date ≤ oldest.mtime
            · rw [if_pos h4] at hf
              simp at hf
            · rw [if_neg h4] at hf
              simp at hf
              rcases hf with rfl | hf'
              · omega
              · have hm := oldestMp4_mem holdest
                have hlt :=
                  length_filter_mp4_unlink_lt w.dirFiles oldest hm.1 hm.2
                have hlen : ((w.unlink oldest.name).dirFiles.filter
                      DirEntry.is_mp4).length
                    = ((w.dirFiles.filter (fun g => g.name ≠ oldest.name)).filter
                        DirEntry.is_mp4).length := rfl
                exact ih _ (by omega) (w.unlink oldest.name) rfl f hf'

/-- Claim C1: in every eviction run, a file is deleted only when the reference
media's publish date is strictly later than that file's mtime; and whenever
(with eviction needed) the reference publish date is older than or equal to
the mtime of the oldest `.mp4` file, `disk_cleanup` raises
`DiskLimitReached` without deleting anything. -/
theorem C1_evictor_age_guard (s : Settings) (ref : Media) (w : World) :
    (∀ f ∈ (disk_cleanup s ref w).2.2, f.mtime < ref.date) ∧
    (s.keep_free ≠ 0 → ref.size ≠ 0 → ¬ w.free > ref.size + s.keep_free →
      ref.date ≠ 0 →
      ∀ oldest, oldestMp4 w.dirFiles = some oldest →
        ref.date ≤ oldest.mtime →
        disk_cleanup s ref w = (.limitReached, w, [])) := by
  constructor
  · intro f hf
    unfold disk_cleanup at hf
    by_cases ha : s.keep_free = 0 ∨ ref.size = 0
    · simp [ha] at hf
    · rw [if_neg ha] at hf
      exact disk_cleanup_loop_deleted_older s ref _ w rfl f hf
  · intro hk hs hfree hdate oldest hold hle
    unfold disk_cleanup
    rw [if_neg (by
      intro hcon
      rcases hcon with h | h
      · exact hk h
      · exact hs h)]
    rw [disk_cleanup_loop.eq_def]
    rw [if_neg hfree, if_neg hdate]
    split
    · rename_i heq
      rw [hold] at heq
      cases heq
    · rename_i oldest2 heq
      rw [hold] at heq
      obtain rfl : oldest2 = oldest := (Option.some_inj.mp heq).symm
      rw [if_pos hle]

def c1s : Settings := ⟨false, false, 1⟩

def c1ref : Media := ⟨"r.mp4", 1, "", 5⟩

def c1f : DirEntry := ⟨"new.mp4", 1, "x", 9⟩

def c1w : World := ⟨0, [c1f]⟩

/-- Witness for C1: with eviction needed and the only file newer than the
reference date, the run raises `DiskLimitReached` without deleting. -/
theorem C1_witness :
    (∀ f ∈ (disk_cleanup c1s c1ref c1w).2.2, f.mtime < c1ref.date) ∧
      disk_cleanup c1s c1ref c1w = (.limitReached, c1w, []) :=
  ⟨(C1_evictor_age_guard c1s c1ref c1w).1,
    (C1_evictor_age_guard c1s c1ref c1w).2 (by decide) (by decide) (by decide)
      (by decide) c1f (by decide) (by decide)⟩

/-- Counterexample for claim C4: with `free` exactly equal to `size + keep_free`
(10 = 5 + 5) and an older file present, the loop does NOT return
immediately: it deletes the file first, refuting "when free space exactly
equals the required amount, no deletion occurs". -/
theorem C4_counterexample :
    disk_cleanup ⟨false, false, 5⟩ ⟨"r.mp4", 5, "", 7⟩
        ⟨10, [⟨"old.mp4", 4, "x", 3⟩]⟩
      = (.success, ⟨14, []⟩, [⟨"old.mp4", 4, "x", 3⟩]) ∧
    (disk_cleanup ⟨false, false, 5⟩ ⟨"r.mp4", 5, "", 7⟩
        ⟨10, [⟨"old.mp4", 4, "x", 3⟩]⟩).2.2 ≠ [] := by
  have h : disk_cleanup ⟨false, false, 5⟩ ⟨"r.mp4", 5, "", 7⟩
      ⟨10, [⟨"old.mp4", 4, "x", 3⟩]⟩
      = (.success, ⟨14, []⟩, [⟨"old.mp4", 4, "x", 3⟩]) :=
    disk_cleanup_eval _ _ _ _ (by decide) (by decide)
  exact ⟨h, by rw [h]; decide⟩

/-- Amended claim C4: the loop returns success, deleting nothing, as soon as the
free space STRICTLY exceeds the required amount (reference size plus
floor); at exact equality the loop continues into eviction. -/
theorem C4_amended_strict_free_check (s : Settings) (ref : Media) (w : World)
    (hassert : ¬ (s.keep_free = 0 ∨ ref.size = 0))
    (hfree : w.free > ref.size + s.keep_free) :
    disk_cleanup s ref w = (.success, w, []) := by
  unfold disk_cleanup
  rw [if_neg hassert, disk_cleanup_loop.eq_def, if_pos hfree]

/-- Witness for the amended C4. -/
theorem C4_witness :
    disk_cleanup ⟨false, false, 5⟩ ⟨"r.mp4", 5, "", 7⟩ ⟨11, []⟩
      = (.success, ⟨11, []⟩, []) :=
  C4_amended_strict_free_check ⟨false, false, 5⟩ ⟨"r.mp4", 5, "", 7⟩ ⟨11, []⟩
    (by decide) (by decide)

/-- Counterexample for claim C5: reference media with no publish date, but free space
above the threshold — the call succeeds instead of raising
`MissingTimestampError`, refuting "raised regardless of how much free space
is available". -/
theorem C5_counterexample :
    disk_cleanup ⟨false, false, 1⟩ ⟨"r.mp4", 1, "", 0⟩ ⟨5, []⟩
        = (.success, ⟨5, []⟩, []) ∧
      (disk_cleanup ⟨false, false, 1⟩ ⟨"r.mp4", 1, "", 0⟩ ⟨5, []⟩).1
        ≠ .missingTimestamp := by
  have h : disk_cleanup ⟨false, false, 1⟩ ⟨"r.mp4", 1, "", 0⟩ ⟨5, []⟩
      = (.success, ⟨5, []⟩, []) :=
    disk_cleanup_eval _ _ _ _ (by decide) (by decide)
  exact ⟨h, by rw [h]; decide⟩

/-- Amended claim C5: when the reference media has no publish date,
`disk_cleanup` never deletes a file; it raises `MissingTimestampError`
exactly when the free space does not strictly exceed the required amount
(otherwise it returns success untouched). -/
theorem C5_amended_missing_timestamp (s : Settings) (ref : Media) (w : World)
    (hassert : ¬ (s.keep_free = 0 ∨ ref.size = 0))
    (hdate : ref.date = 0) :
    (disk_cleanup s ref w).2.2 = [] ∧
      (¬ w.free > ref.size + s.keep_free →
        disk_cleanup s ref w = (.missingTimestamp, w, [])) := by
  unfold disk_cleanup
  rw [if_neg hassert, disk_cleanup_loop.eq_def]
  by_cases hfree : ref.size + s.keep_free < w.free
  · rw [if_pos hfree]
    exact ⟨rfl, fun hcon => absurd hfree hcon⟩
  · rw [if_neg hfree, if_pos hdate]
    exact ⟨rfl, fun _ => rfl⟩

/-- Witness for the amended C5. -/
theorem C5_witness :
    (disk_cleanup ⟨false, false, 1⟩ ⟨"r.mp4", 1, "", 0⟩ ⟨0, []⟩).2.2 = [] ∧
      (¬ (0 : Nat) > 1 + 1 →
        disk_cleanup ⟨false, false, 1⟩ ⟨"r.mp4", 1, "", 0⟩ ⟨0, []⟩
          = (.missingTimestamp, ⟨0, []⟩, [])) :=
  C5_amended_missing_timestamp ⟨false, false, 1⟩ ⟨"r.mp4", 1, "", 0⟩ ⟨0, []⟩
    (by decide) (by decide)

/-- Claim C7: in a `download_all` pass with a space floor configured, an item for
which the Evictor raises `MissingTimestampError` is skipped and the pass
continues with the remaining items; an item for which it raises
`DiskLimitReached` stops the whole pass, and no remaining item is
attempted. -/
theorem C7_orchestrator_eviction_outcomes (s : Settings)
    (ora : Media → Oracles) (w : World) (m1 m2 : Media)
    (rest1 rest2 : List Media) (hk : 0 < s.keep_free)
    (h1 : (disk_cleanup s m1 w).1 = .missingTimestamp)
    (h2 : (disk_cleanup s m2 w).1 = .limitReached) :
    (download_all_go s ora w (m1 :: rest1) =
      ((download_all_go s ora (disk_cleanup s m1 w).2.1 rest1).1,
        .skipped m1 ::
          (download_all_go s ora (disk_cleanup s m1 w).2.1 rest1).2)) ∧
    (download_all_go s ora w (m2 :: rest2) =
      ((disk_cleanup s m2 w).2.1, [.halted])) := by
  constructor
  · rcases hd : disk_cleanup s m1 w with ⟨r, w1, del⟩
    rw [hd] at h1
    simp only at h1
    subst h1
    simp [download_all_go, hk, hd]
  · rcases hd : disk_cleanup s m2 w with ⟨r, w1, del⟩
    rw [hd] at h2
    simp only at h2
    subst h2
    simp [download_all_go, hk, hd]

def c7s : Settings := ⟨false, false, 10⟩

def c7ora : Media → Oracles := fun _ => ⟨fun _ => ⟨0, ""⟩, 0, "", 0⟩

def c7w : World := ⟨0, [⟨"a.mp4", 2, "x", 9⟩]⟩

def c7m1 : Media := ⟨"m1.mp4", 1, "", 0⟩

def c7m2 : Media := ⟨"m2.mp4", 1, "", 3⟩

/-- Witness for C7 at concrete inputs: one item with no timestamp (skipped)
and one item older than the library (halts the pass). -/
theorem C7_witness :
    (download_all_go c7s c7ora c7w [c7m1] =
      ((download_all_go c7s c7ora (disk_cleanup c7s c7m1 c7w).2.1 []).1,
        .skipped c7m1 ::
          (download_all_go c7s c7ora (disk_cleanup c7s c7m1 c7w).2.1 []).2)) ∧
    (download_all_go c7s c7ora c7w [c7m2] =
      ((disk_cleanup c7s c7m2 c7w).2.1, [.halted])) := by
  have e1 : disk_cleanup c7s c7m1 c7w = (.missingTimestamp, c7w, []) :=
    disk_cleanup_eval _ _ _ _ (by decide) (by decide)
  have e2 : disk_cleanup c7s c7m2 c7w = (.limitReached, c7w, []) :=
    disk_cleanup_eval _ _ _ _ (by decide) (by decide)
  exact C7_orchestrator_eviction_outcomes c7s c7ora c7w c7m1 c7m2 [] []
    (by decide) (by rw [e1]) (by rw [e2])

def c2s : Settings := ⟨false, false, 0⟩

def c2m : Media := ⟨"a.mp4", 1000, "good", 0⟩

def c2o : Oracles := ⟨fun _ => ⟨600, "bad"⟩, 1000, "good", 99⟩

def c2w : World := ⟨5000, [⟨"a.mp4.part", 400, "x", 1⟩]⟩

/-- Counterexample for claim C2: staging file of size 400 with expected size 1000;
the resume completes to size 1000 but the checksum mismatches.  The code
deletes the staging file and then performs a FULL fresh re-download in the
same call, which here succeeds and creates the final file — the claim said
the item fails with no retry, no full re-download and no final file. -/
theorem C2_counterexample :
    (download_media c2s c2m c2o c2w).1 = true ∧
      ((download_media c2s c2m c2o c2w).2.lookup "a.mp4").isSome = true :=
  ⟨rfl, rfl⟩

/-- Amended claim C2: after the (possibly resumed) transfer, a known-size
mismatch — or else a known-checksum mismatch — deletes the staging file
and then falls through to the regular full-download path inside the same
call; the item does not fail immediately, the fresh attempt decides the
outcome. -/
theorem C2_amended_mismatch_falls_through (s : Settings) (media : Media)
    (o : Oracles) (w : World) (tmp : DirEntry) (w1 : World) (tmp0 : DirEntry)
    (ht : w.lookup (media.filename ++ ".part") = some tmp0)
    (hp : (if media.size ≠ 0 ∧ tmp0.size < media.size then
            download_file_resume o (media.filename ++ ".part") tmp0 w
          else (tmp0, w)) = (tmp, w1))
    (hmis : (media.size ≠ 0 ∧ tmp.size ≠ media.size) ∨
      (¬ (media.size ≠ 0 ∧ tmp.size ≠ media.size) ∧
        media.md5 ≠ "" ∧ tmp.md5 ≠ media.md5)) :
    download_media s media o w =
      download_media_rest s media o
        (w1.unlink (media.filename ++ ".part")) := by
  simp only [download_media, ht, hp]
  rcases hmis with hA | ⟨hnA, hB⟩
  · rw [if_pos hA]
  · rw [if_neg hnA, if_pos hB]

def c2tmp : DirEntry := ⟨"a.mp4.part", 1000, "bad", 99⟩

def c2w1 : World := ⟨4400, [c2tmp]⟩

/-- Witness for the amended C2 at the counterexample input. -/
theorem C2_witness :
    download_media c2s c2m c2o c2w =
      download_media_rest c2s c2m c2o (c2w1.unlink "a.mp4.part") :=
  C2_amended_mismatch_falls_through c2s c2m c2o c2w c2tmp c2w1
    ⟨"a.mp4.part", 400, "x", 1⟩ (by decide) (by decide) (by decide)

def c3s : Settings := ⟨false, true, 0⟩

def c3m : Media := ⟨"c.mp4", 1000, "h", 2⟩

def c3o : Oracles := ⟨fun _ => ⟨0, ""⟩, 900, "h", 50⟩

def c3m2 : Media := ⟨"d.mp4", 900, "h", 2⟩

def c3o2 : Oracles := ⟨fun _ => ⟨0, ""⟩, 900, "wrong", 50⟩

def c3w : World := ⟨5000, []⟩

/-- Claim C3, the code evaluated at the failing input: a fresh download delivers
a non-zero file of size 900 against expected size 1000; the file is renamed
to final and KEPT, but the function returns failure (`False`) despite the
"log only" comment — while a checksum-only mismatch is indeed log-only
(success returned, file kept). -/
theorem C3_fresh_audit_behaviour :
    ((download_media c3s c3m c3o c3w).1 = false ∧
      ((download_media c3s c3m c3o c3w).2.lookup "c.mp4").isSome = true) ∧
    ((download_media c3s c3m2 c3o2 c3w).1 = true ∧
      ((download_media c3s c3m2 c3o2 c3w).2.lookup "d.mp4").isSome = true) :=
  ⟨⟨rfl, rfl⟩, ⟨rfl, rfl⟩⟩

/-- Claim C9: on the resumed-staging path the MD5 comparison runs whenever the
expected checksum is known, even with `s.checksums` disabled — a mismatch
deletes the staging file and falls through to the full download — whereas
`check_media` with `s.checksums` disabled accepts a final file with a
mismatching digest. -/
theorem C9_resumed_checksum_ignores_flag (s : Settings) (media : Media)
    (o : Oracles) (w w' : World) (tmp0 g : DirEntry)
    (hcs : s.checksums = false)
    (ht : w.lookup (media.filename ++ ".part") = some tmp0)
    (hsz : media.size = 0 ∨ tmp0.size = media.size)
    (hmd : media.md5 ≠ "") (hmm : tmp0.md5 ≠ media.md5) :
    (download_media s media o w =
      download_media_rest s media o
        (w.unlink (media.filename ++ ".part"))) ∧
    (w'.lookup media.filename = some g → g.md5 ≠ media.md5 →
      ¬ (media.size ≠ 0 ∧ g.size ≠ media.size) →
      check_media s media w' = true) := by
  constructor
  · have hng : ¬ (media.size ≠ 0 ∧ tmp0.size < media.size) := by
      rcases hsz with h | h
      · simp [h]
      · simp [h]
    have hg1 : ¬ (media.size ≠ 0 ∧ tmp0.size ≠ media.size) := by
      rcases hsz with h | h
      · simp [h]
      · simp [h]
    simp only [download_media, ht, if_neg hng]
    rw [if_neg hg1, if_pos ⟨hmd, hmm⟩]
  · intro hg hgm hgs
    rcases hob : s.overwrite_bad with _ | _
    · simp [check_media, hg, hob]
    · simp [check_media, hg, hob, hgs, hcs]

def c9s : Settings := ⟨true, false, 0⟩

def c9m : Media := ⟨"f.mp4", 500, "good", 0⟩

def c9o : Oracles := ⟨fun _ => ⟨0, ""⟩, 500, "good", 42⟩

def c9w : World := ⟨100, [⟨"f.mp4.part", 500, "evil", 7⟩]⟩

def c9w2 : World := ⟨100, [⟨"f.mp4", 500, "evil", 7⟩]⟩

/-- Witness for C9: checksums disabled, staging file with full size but
wrong digest is deleted and re-downloaded, while `check_media` accepts a
final file with the same wrong digest. -/
theorem C9_witness :
    (download_media c9s c9m c9o c9w =
      download_media_rest c9s c9m c9o (c9w.unlink "f.mp4.part")) ∧
    (c9w2.lookup c9m.filename = some ⟨"f.mp4", 500, "evil", 7⟩ →
      DirEntry.md5 ⟨"f.mp4", 500, "evil", 7⟩ ≠ c9m.md5 →
      ¬ (c9m.size ≠ 0 ∧ DirEntry.size ⟨"f.mp4", 500, "evil", 7⟩ ≠ c9m.size) →
      check_media c9s c9m c9w2 = true) :=
  C9_resumed_checksum_ignores_flag c9s c9m c9o c9w c9w2
    ⟨"f.mp4.part", 500, "evil", 7⟩ ⟨"f.mp4", 500, "evil", 7⟩
    (by decide) (by decide) (by decide) (by decide) (by decide)

def c10s : Settings := ⟨false, false, 0⟩

def c10m : Media := ⟨"e.mp4", 0, "m", 4⟩

def c10w : World := ⟨100, [⟨"e.mp4.part", 7, "z", 1⟩]⟩

def c10oA : Oracles := ⟨fun _ => ⟨0, ""⟩, 0, "", 6⟩

def c10oB : Oracles := ⟨fun _ => ⟨0, ""⟩, 9, "m", 6⟩

/-- Counterexample for claim C10: staging file present, expected size unknown, and
the staging digest mismatches the known expected checksum — the call DOES
perform a transfer: two runs that differ only in what the network would
deliver for the full download produce different results, refuting
"performs no transfer at all". -/
theorem C10_counterexample :
    download_media c10s c10m c10oA c10w
      ≠ download_media c10s c10m c10oB c10w := by
  decide

/-- Amended claim C10: with a staging file present and the expected size unknown,
no resume transfer happens (the outcome ignores the range-request oracle);
if the expected checksum is known and mismatches, the staging file is
deleted and a fresh full download is attempted; otherwise the staging file
is stamped with the publish date when known and promoted to final with
success. -/
theorem C10_amended_size_unknown_staging (s : Settings) (media : Media)
    (o : Oracles) (w : World) (tmp0 : DirEntry)
    (hsz : media.size = 0)
    (ht : w.lookup (media.filename ++ ".part") = some tmp0) :
    (∀ r : Nat → ResumeOut,
      download_media s media ⟨r, o.freshSize, o.freshMd5, o.now⟩ w =
        download_media s media o w) ∧
    (media.md5 ≠ "" ∧ tmp0.md5 ≠ media.md5 →
      download_media s media o w =
        download_media_rest s media o
          (w.unlink (media.filename ++ ".part"))) ∧
    (¬ (media.md5 ≠ "" ∧ tmp0.md5 ≠ media.md5) →
      download_media s media o w =
        (true, ((if media.date ≠ 0 then
              w.setMtime (media.filename ++ ".part") media.date
            else w).rename (media.filename ++ ".part") media.filename))) := by
  have hng : ¬ (media.size ≠ 0 ∧ tmp0.size < media.size) := by simp [hsz]
  have hg1 : ¬ (media.size ≠ 0 ∧ tmp0.size ≠ media.size) := by simp [hsz]
  have hrest : ∀ (r : Nat → ResumeOut) (w' : World),
      download_media_rest s media ⟨r, o.freshSize, o.freshMd5, o.now⟩ w' =
        download_media_rest s media o w' := fun r w' => rfl
  refine ⟨?_, ?_, ?_⟩
  · intro r
    simp only [download_media, ht, if_neg hng]
    rw [if_neg hg1, if_neg hg1]
    by_cases hmd5 : media.md5 ≠ "" ∧ tmp0.md5 ≠ media.md5
    · rw [if_pos hmd5, if_pos hmd5]
      exact hrest r _
    · rw [if_neg hmd5, if_neg hmd5]
  · intro hmd5
    simp only [download_media, ht, if_neg hng]
    rw [if_neg hg1, if_pos hmd5]
  · intro hmd5
    simp only [download_media, ht, if_neg hng]
    rw [if_neg hg1, if_neg hmd5]

def c10m2 : Media := ⟨"g.mp4", 0, "m", 4⟩

def c10w2 : World := ⟨100, [⟨"g.mp4.part", 7, "m", 1⟩]⟩

/-- Witness for the amended C10: matching checksum, so the staging file is
promoted as-is with the publish date stamped. -/
theorem C10_witness :
    (∀ r : Nat → ResumeOut,
      download_media c10s c10m2 ⟨r, c10oA.freshSize, c10oA.freshMd5,
          c10oA.now⟩ c10w2 =
        download_media c10s c10m2 c10oA c10w2) ∧
    (c10m2.md5 ≠ "" ∧ DirEntry.md5 ⟨"g.mp4.part", 7, "m", 1⟩ ≠ c10m2.md5 →
      download_media c10s c10m2 c10oA c10w2 =
        download_media_rest c10s c10m2 c10oA (c10w2.unlink "g.mp4.part")) ∧
    (¬ (c10m2.md5 ≠ "" ∧ DirEntry.md5 ⟨"g.mp4.part", 7, "m", 1⟩ ≠ c10m2.md5) →
      download_media c10s c10m2 c10oA c10w2 =
        (true, ((if c10m2.date ≠ 0 then
              c10w2.setMtime "g.mp4.part" c10m2.date
            else c10w2).rename "g.mp4.part" c10m2.filename))) :=
  C10_amended_size_unknown_staging c10s c10m2 c10oA c10w2
    ⟨"g.mp4.part", 7, "m", 1⟩ (by decide) (by decide)

end JwKodiator
